import Mathlib

/-!
Verification development for the XLake data pipeline engine.

Shallow embedding of the Rust sources:
- crates/xlake-ast/src/lib.rs        (Value, Number, Binary, Object, PlanKind)
- crates/xlake-core/src/lib.rs       (single-layer LazyObject, pull, PipeStore save)
- crates/xlake-core/src/object.rs    (layered LazyObject, ObjectLayer, flatten)
- crates/xlake-core/src/models/hash.rs (hash model view, cast and validate)
- crates/xlake/src/lib.rs            (plan compilation loop and executor)
- crates/xlake/src/stores/local.rs   (local JSON store)

Machine integers do not occur on the verified paths; byte values are
modelled as Nat (each entry of a Binary is one byte).  Fallible and
asynchronous operations are modelled with Except: a one-shot future is
represented by its eventual outcome.
-/

namespace XLake

/-! ## xlake-ast: Value and Object

Value is an untagged sum (serde untagged).  serde_json Numbers on the
verified paths are integers (the ValueVisitor implements only the integer
visit methods), so Number.fixed carries an Int.  Binary carries raw bytes.
-/

/-- Number from xlake-ast: either a fixed JSON number or a symbolic
numeric string. -/
inductive Number where
  | fixed (n : Int)
  | dynamic (s : String)
deriving DecidableEq

/-- Value from xlake-ast: tagged sum of Null, Bool, Number, Binary, String. -/
inductive Value where
  | null
  | bool (b : Bool)
  | number (n : Number)
  | binary (bytes : List Nat)
  | string (s : String)
deriving DecidableEq

/-- Whether a Value is of the String variant. -/
def Value.isString : Value → Bool
  | .string _ => true
  | _ => false

/-- Object from xlake-ast: a BTreeMap from String keys to Value.  The map
is modelled as its entry list in iteration (key) order; every Object the
program builds has strictly increasing, duplicate-free keys. -/
abbrev Object : Type := List (String × Value)

namespace Object

/-- BTreeMap::get. -/
def find? : Object → String → Option Value
  | [], _ => none
  | (k, v) :: rest, key => if k = key then some v else find? rest key

/-- BTreeMap::insert: store the value under the key, replacing an existing
entry and keeping entries in key order. -/
def insertKV : Object → String → Value → Object
  | [], key, val => [(key, val)]
  | (k, v) :: rest, key, val =>
    if key < k then (key, val) :: (k, v) :: rest
    else if key = k then (key, val) :: rest
    else (k, v) :: insertKV rest key val

/-- BTreeMap::append: move every entry of the second map into the first,
the second map's value winning on a duplicate key.  Appending into the
empty map yields the other map; otherwise every entry of the second map is
inserted in turn. -/
def append : Object → Object → Object
  | [], other => other
  | o, other => other.foldl (fun acc kv => Object.insertKV acc kv.1 kv.2) o

end Object

/-- BTreeSet of model names (the models axis of a layer), modelled as the
list of its elements; the claims below depend only on membership and
emptiness, never on iteration order. -/
abbrev ModelSet : Type := List String

namespace ModelSet

/-- BTreeSet::append / extend: set union.  Union into the empty set yields
the other set; otherwise the new elements are added after the existing
ones (iteration order of the result is not observed by any claim). -/
def union : ModelSet → ModelSet → ModelSet
  | [], other => other
  | s, other => s ++ other.filter (fun x => ¬ s.contains x)

end ModelSet

/-! ## xlake-core/src/lib.rs: the single-layer LazyObject and the store
save algorithm.

A LazyObject here is an optional deferred producer plus a materialised
content Object.  The deferred producer is one-shot; it is modelled by its
eventual outcome (an Except value), with error type E. -/

namespace Core

/-- LazyObject from xlake-core/src/lib.rs: an optional pending future and
the materialised content. -/
structure LazyObject (E : Type) where
  future : Option (Except E Object)
  content : Object

/-- From Object for LazyObject: no pending future. -/
def LazyObject.ofObject {E : Type} (content : Object) : LazyObject E :=
  { future := none, content := content }

/-- LazyObject::pull: if a future is pending, await it and let its output
replace the content (the source carries a TODO about merging instead);
otherwise return the content. -/
def LazyObject.pull {E : Type} (o : LazyObject E) : Except E Object :=
  match o.future with
  | some f => f
  | none => .ok o.content

/-- The typed String getter on the content (PipeModelEntity for String):
present and of String variant, else none.  HashModelView::hash unwraps
this getter. -/
def LazyObject.getString {E : Type} (o : LazyObject E) (key : String) : Option String :=
  match o.content.find? key with
  | some (.string s) => some s
  | _ => none

/-- A content-addressed store (trait PipeStore): contains, read_item and
write_item, all fallible; write_item returns the updated store state. -/
structure PipeStore (σ E : Type) where
  contains : σ → String → Except E Bool
  readItem : σ → String → Except E Object
  writeItem : σ → String → Object → Except E σ

/-- Errors of the save algorithm: a propagated error (the question-mark
operator in the source), or the panic of HashModelView::hash when the
hash field is present but not a String (the source unwraps the typed
getter there). -/
inductive SaveErr (E : Type) where
  | err (e : E)
  | panicHashNotString
deriving DecidableEq

/-- One record of PipeStoreExt::save.  Cast to the hash model succeeds iff
the raw hash field is present; a record failing the cast is forwarded
unchanged.  On a hit with a pending future, the future is dropped and the
record is replaced by the object read from the store now; on a hit with no
pending future the record is forwarded unchanged.  On a miss the record is
pulled, the pulled content is written under the hash and forwarded. -/
def saveStep {σ E : Type} (S : PipeStore σ E) (st : σ) (item : LazyObject E) :
    Except (SaveErr E) (σ × LazyObject E) :=
  match item.content.find? "hash" with
  | none => .ok (st, item)
  | some v =>
    match v with
    | .string h =>
      match S.contains st h with
      | .error e => .error (.err e)
      | .ok true =>
        match item.future with
        | some _ =>
          match S.readItem st h with
          | .error e => .error (.err e)
          | .ok o => .ok (st, LazyObject.ofObject o)
        | none => .ok (st, item)
      | .ok false =>
        match item.pull with
        | .error e => .error (.err e)
        | .ok content =>
          match S.writeItem st h content with
          | .error e => .error (.err e)
          | .ok st' => .ok (st', LazyObject.ofObject content)
    | _ => .error .panicHashNotString

/-- PipeStoreExt::save over the whole input channel, one record at a time,
in order, short-circuiting on the first failure (try_collect). -/
def save {σ E : Type} (S : PipeStore σ E) (st : σ) :
    List (LazyObject E) → Except (SaveErr E) (σ × List (LazyObject E))
  | [] => .ok (st, [])
  | item :: rest =>
    match saveStep S st item with
    | .error e => .error e
    | .ok (st', item') =>
      match save S st' rest with
      | .error e => .error e
      | .ok (st'', rest') => .ok (st'', item' :: rest')

end Core

/-! ## xlake-core/src/object.rs: the layered LazyObject.

A LazyObject is a stack of ObjectLayers; the source keeps the stack
non-empty (the From constructor builds a singleton and Deref unwraps the
last layer).  Each layer holds materialised content, an optional one-shot
deferred producer (modelled by its eventual outcome) and the set of model
names the layer asserts. -/

namespace Layered

/-- ObjectLayer from object.rs: content, optional future, models set. -/
structure ObjectLayer (E : Type) where
  content : Object
  future : Option (Except E Object)
  models : ModelSet

/-- LazyObject from object.rs: the stack of layers (non-empty for every
value the program constructs). -/
structure LazyObject (E : Type) where
  layers : List (ObjectLayer E)

/-- From ObjectLayer for LazyObject: a singleton stack. -/
def LazyObject.ofLayer {E : Type} (layer : ObjectLayer E) : LazyObject E :=
  { layers := [layer] }

/-- ObjectLayer::is_ready: no pending future. -/
def ObjectLayer.isReady {E : Type} (layer : ObjectLayer E) : Bool :=
  layer.future.isNone

/-- LazyObject::is_ready: every layer is ready. -/
def LazyObject.isReady {E : Type} (o : LazyObject E) : Bool :=
  o.layers.all ObjectLayer.isReady

/-- LazyObject::append_future: Deref reaches the top (last) layer; if it
already has a pending future, push a fresh layer with empty content, the
supplied future and the supplied models; if it is ready, attach the future
to it (the source touches nothing else of the layer).  An empty stack is
unreachable in the source (Deref unwraps); it is returned unchanged. -/
def LazyObject.appendFuture {E : Type} (o : LazyObject E) (fut : Except E Object)
    (models : ModelSet) : LazyObject E :=
  match o.layers.getLast? with
  | none => o
  | some top =>
    match top.future with
    | some _ => { layers := o.layers ++ [{ content := [], future := some fut, models := models }] }
    | none => { layers := o.layers.dropLast ++ [{ top with future := some fut }] }

/-- LazyObject::append_layer: push unconditionally. -/
def LazyObject.appendLayer {E : Type} (o : LazyObject E) (layer : ObjectLayer E) :
    LazyObject E :=
  { layers := o.layers ++ [layer] }

/-- ObjectLayer::merge_without_future: append the other layer's content
onto this one (other's entries overwrite on equal keys) and union the
models; the receiving layer's future field is untouched. -/
def ObjectLayer.mergeWithoutFuture {E : Type} (a b : ObjectLayer E) : ObjectLayer E :=
  { a with
      content := Object.append a.content b.content
      models := ModelSet.union a.models b.models }

/-- The empty accumulator layer used by flatten_without_futures. -/
def ObjectLayer.emptyAcc {E : Type} : ObjectLayer E :=
  { content := [], future := none, models := [] }

/-- LazyObject::flatten_without_futures: fold merge_without_future over
the layers, starting from an empty layer (pending futures are dropped). -/
def LazyObject.flattenWithoutFutures {E : Type} (o : LazyObject E) : ObjectLayer E :=
  o.layers.foldl ObjectLayer.mergeWithoutFuture ObjectLayer.emptyAcc

/-- ObjectLayer::take_future: await the pending future, if any, and append
its output onto the content (the output's entries overwrite on equal
keys); a failing future fails the operation. -/
def ObjectLayer.takeFuture {E : Type} (layer : ObjectLayer E) : Except E (ObjectLayer E) :=
  match layer.future with
  | none => .ok layer
  | some (.ok out) => .ok { layer with content := Object.append layer.content out, future := none }
  | some (.error e) => .error e

/-- FuturesOrdered + try_collect over take_future: the futures resolve
layer by layer in insertion order and the first failure, in that order,
aborts the collection. -/
def takeAllFutures {E : Type} : List (ObjectLayer E) → Except E (List (ObjectLayer E))
  | [] => .ok []
  | layer :: rest =>
    match ObjectLayer.takeFuture layer with
    | .error e => .error e
    | .ok layer' =>
      match takeAllFutures rest with
      | .error e => .error e
      | .ok rest' => .ok (layer' :: rest')

/-- LazyObject::flatten: resolve every layer's future in insertion order,
then merge all layers into one. -/
def LazyObject.flatten {E : Type} (o : LazyObject E) : Except E (LazyObject E) :=
  match takeAllFutures o.layers with
  | .error e => .error e
  | .ok layers => .ok (LazyObject.ofLayer (LazyObject.flattenWithoutFutures { layers := layers }))

/-- LazyObject::replace_with: flatten the ready portion, dropping pending
futures, and attach the supplied future to the single resulting layer. -/
def LazyObject.replaceWith {E : Type} (o : LazyObject E) (fut : Except E Object) :
    LazyObject E :=
  LazyObject.ofLayer { o.flattenWithoutFutures with future := some fut }

/-- LazyObject::get_raw: Deref reaches the top (last) layer and looks the
key up in that layer's content only. -/
def LazyObject.getRaw {E : Type} (o : LazyObject E) (key : String) : Option Value :=
  match o.layers.getLast? with
  | some top => top.content.find? key
  | none => none

/-- The typed String getter on the top layer (ValueExt for String):
present and of String variant, else none. -/
def LazyObject.getString {E : Type} (o : LazyObject E) (key : String) : Option String :=
  match o.getRaw key with
  | some (.string s) => some s
  | _ => none

/-! ### xlake-core/src/models/hash.rs: the hash model view. -/

/-- HashModelView over an owned LazyObject. -/
structure HashModelView (E : Type) where
  item : LazyObject E

/-- The generated validator of the hash model: the raw value at key
"hash" must be present (its variant is not inspected). -/
def validateHash {E : Type} (o : LazyObject E) : Bool :=
  (o.getRaw "hash").isSome

/-- PipeModelOwned::__cast for HashModelView: wrap the record if the
validator passes, otherwise give the record back unchanged. -/
def castHash {E : Type} (o : LazyObject E) : Except (LazyObject E) (HashModelView E) :=
  if validateHash o then .ok { item := o } else .error o

end Layered

/-! ## xlake/src/lib.rs: plan compilation (PipeSession::call_with, first
loop) and execution (second loop).

The node-factory registry is a map from PlanKind to factory; a factory
declares its kind, input edge, output edge and a fallible build.  The
channel type is left as a parameter Chan: the executor never inspects it.
-/

namespace Pipe

/-- PlanType from xlake-ast (with the implementation-internal batch and
stream tags used by the current node set). -/
inductive PlanType where
  | format
  | func
  | model
  | sink
  | src
  | store
  | batch
  | stream
deriving DecidableEq

/-- PlanKind from xlake-ast: the role tag of a plan. -/
inductive PlanKind where
  | format (name : String)
  | func (modelName fn : String)
  | model (name : String)
  | sink (name : String)
  | src (name : String)
  | store (name : String)
  | batch (name : String)
  | stream (name : String)
deriving DecidableEq

/-- PlanKind::type_name. -/
def PlanKind.typeName : PlanKind → PlanType
  | .format _ => .format
  | .func _ _ => .func
  | .model _ => .model
  | .sink _ => .sink
  | .src _ => .src
  | .store _ => .store
  | .batch _ => .batch
  | .stream _ => .stream

/-- Whether a PlanKind is a Src (the matches macro in the source). -/
def PlanKind.isSrc : PlanKind → Bool
  | .src _ => true
  | _ => false

/-- Whether a PlanKind is a Sink. -/
def PlanKind.isSink : PlanKind → Bool
  | .sink _ => true
  | _ => false

/-- Plan from xlake-ast: kind plus argument object. -/
structure Plan where
  kind : PlanKind
  args : Object

/-- PipeEdge: the declared compatibility triple of a node boundary; the
batch and stream axes are engine names, the model axis is an optional list
of model names. -/
structure PipeEdge where
  batch : String
  model : Option (List String)
  stream : String

/-- PipeNodeImpl: the concrete node produced by a factory.  Src yields a
channel, Func and Store map a channel to a channel, Sink consumes one;
the Batch and Stream arms of the executor are unimplemented in the source
(todo macros), so their payload is irrelevant here. -/
inductive PipeNodeImpl (Chan E : Type) where
  | batch
  | func (call : Chan → Except E Chan)
  | sink (call : Chan → Except E Unit)
  | src (call : Except E Chan)
  | store (save : Chan → Except E Chan)
  | stream

/-- PipeNodeImpl::type_name. -/
def PipeNodeImpl.typeName {Chan E : Type} : PipeNodeImpl Chan E → PlanType
  | .batch => .batch
  | .func _ => .func
  | .sink _ => .sink
  | .src _ => .src
  | .store _ => .store
  | .stream => .stream

/-- A node factory (trait PipeNodeFactory): kind, input edge, output edge
and the fallible build. -/
structure PipeNodeFactory (Chan E : Type) where
  kind : PlanKind
  input : PipeEdge
  output : PipeEdge
  build : Object → Except E (PipeNodeImpl Chan E)

/-- PipeNode: an initialised node of the validated sequence. -/
structure PipeNode (Chan E : Type) where
  kind : PlanKind
  args : Object
  imp : PipeNodeImpl Chan E

/-- The errors the compilation loop can produce.  The three starred kinds
(incompatible batch, missing model, incompatible stream) are declared for
the edge checks, but the validator that would raise them is a stub in the
source, so they are never produced (see validateTypes). -/
inductive CompileErr (E : Type) where
  | unknownNode (kind : PlanKind)
  | implicitModel (kind : PlanKind)
  | incompatibleBatch (kind : PlanKind)
  | missingModel (kind : PlanKind)
  | incompatibleStream (kind : PlanKind)
  | buildFailed (e : E)
  | nodeKindMismatch (expected got : PlanType)
  | duplicatedSrc (prev cur : PlanKind)
  | linkBeforeSrc (kind : PlanKind)
  | duplicatedSink (prev cur : PlanKind)
  | linkAfterSink (kind : PlanKind)
  | noSrc
  | noSink

/-- xlake_core::batch::NAME, the initial batch axis of the rolling
context. -/
def batchEngineName : String := "datafusion"

/-- xlake_core::stream::NAME, the initial stream axis of the rolling
context. -/
def streamEngineName : String := "memory"

/-- The rolling state of the compilation loop. -/
structure CompileState (Chan E : Type) where
  inputBatch : String
  inputModel : ModelSet
  inputStream : String
  nodes : List (PipeNode Chan E)
  termInput : Option PlanKind
  termOutput : Option PlanKind

/-- The initial rolling state of call_with. -/
def initState (Chan E : Type) : CompileState Chan E :=
  { inputBatch := batchEngineName
    inputModel := []
    inputStream := streamEngineName
    nodes := []
    termInput := none
    termOutput := none }

/-- PipeSession::validate_types: the body of this function is commented
out in the source and it returns Ok(()) unconditionally, so none of the
batch, model-membership or stream comparisons it was meant to perform can
fail. -/
def validateTypes {E : Type} (_inputs _outputs : List String) : Except (CompileErr E) Unit :=
  .ok ()

/-- The registry lookup (self.factories.get of the plan kind). -/
def lookupFactory {Chan E : Type} (factories : List (PlanKind × PipeNodeFactory Chan E))
    (kind : PlanKind) : Option (PipeNodeFactory Chan E) :=
  match factories with
  | [] => none
  | (k, f) :: rest => if k = kind then some f else lookupFactory rest kind

/-- The input-edge validation block of the loop body: the batch axis goes
through the stub validator; a set model axis with an empty rolling model
set fails with the implicit-model error, and otherwise the model list goes
through the stub validator; the stream axis goes through the stub
validator. -/
def checkInput {Chan E : Type} (st : CompileState Chan E) (ie : PipeEdge) (kind : PlanKind) :
    Except (CompileErr E) Unit :=
  match validateTypes [st.inputBatch] [ie.batch] with
  | .error e => .error e
  | .ok () =>
    match ie.model with
    | some ms =>
      if st.inputModel.isEmpty then .error (.implicitModel kind)
      else
        match validateTypes st.inputModel ms with
        | .error e => .error e
        | .ok () => validateTypes [st.inputStream] [ie.stream]
    | none => validateTypes [st.inputStream] [ie.stream]

/-- The output-edge update of the loop body: replace the batch and stream
axes and extend (union) the model set when the output edge sets it. -/
def applyOutput {Chan E : Type} (st : CompileState Chan E) (oe : PipeEdge) :
    CompileState Chan E :=
  { st with
      inputBatch := oe.batch
      inputModel :=
        match oe.model with
        | some ms => ModelSet.union st.inputModel ms
        | none => st.inputModel
      inputStream := oe.stream }

/-- The Src bookkeeping of the loop body: a second Src is a duplicate; a
non-Src before any Src cannot be linked. -/
def checkSrc {Chan E : Type} (st : CompileState Chan E) (kind : PlanKind) :
    Except (CompileErr E) (CompileState Chan E) :=
  match kind, st.termInput with
  | .src _, some prev => .error (.duplicatedSrc prev kind)
  | .src _, none => .ok { st with termInput := some kind }
  | _, none => .error (.linkBeforeSrc kind)
  | _, some _ => .ok st

/-- The Sink bookkeeping of the loop body: a second Sink is a duplicate; a
non-Sink after the Sink cannot be linked. -/
def checkSink {Chan E : Type} (st : CompileState Chan E) (kind : PlanKind) :
    Except (CompileErr E) (CompileState Chan E) :=
  match kind, st.termOutput with
  | .sink _, some prev => .error (.duplicatedSink prev kind)
  | .sink _, none => .ok { st with termOutput := some kind }
  | _, some _ => .error (.linkAfterSink kind)
  | _, none => .ok st

/-- One iteration of the compilation loop of call_with: factory lookup,
input-edge validation, output-edge context update, build, node-kind
check, Src then Sink bookkeeping, and finally the node is appended. -/
def compileStep {Chan E : Type} (factories : List (PlanKind × PipeNodeFactory Chan E))
    (st : CompileState Chan E) (p : Plan) : Except (CompileErr E) (CompileState Chan E) :=
  match lookupFactory factories p.kind with
  | none => .error (.unknownNode p.kind)
  | some factory =>
    match checkInput st factory.input p.kind with
    | .error e => .error e
    | .ok () =>
      let st1 := applyOutput st factory.output
      match factory.build p.args with
      | .error e => .error (.buildFailed e)
      | .ok imp =>
        if imp.typeName ≠ p.kind.typeName then
          .error (.nodeKindMismatch p.kind.typeName imp.typeName)
        else
          match checkSrc st1 p.kind with
          | .error e => .error e
          | .ok st2 =>
            match checkSink st2 p.kind with
            | .error e => .error e
            | .ok st3 => .ok { st3 with nodes := st3.nodes ++ [⟨p.kind, p.args, imp⟩] }

/-- The compilation loop of call_with over the plan list, threading the
rolling state and stopping at the first failure (the question-mark
operator in the loop body). -/
def compileFold {Chan E : Type} (factories : List (PlanKind × PipeNodeFactory Chan E)) :
    CompileState Chan E → List Plan → Except (CompileErr E) (CompileState Chan E)
  | st, [] => .ok st
  | st, p :: rest =>
    match compileStep factories st p with
    | .error e => .error e
    | .ok st' => compileFold factories st' rest

/-- The whole compilation phase of call_with: run the loop from the
initial state, then require that a Src and a Sink were seen. -/
def compile {Chan E : Type} (factories : List (PlanKind × PipeNodeFactory Chan E))
    (plans : List Plan) : Except (CompileErr E) (List (PipeNode Chan E)) :=
  match compileFold factories (initState Chan E) plans with
  | .error e => .error e
  | .ok st =>
    match st.termInput with
    | none => .error .noSrc
    | some _ =>
      match st.termOutput with
      | none => .error .noSink
      | some _ => .ok st.nodes

/-- Execution outcomes other than success: a node call that failed, the
unwrap of an absent channel at a Func or Sink node, and the unimplemented
arms of the dispatcher (Batch and Stream nodes, and the Store load path
reached with no upstream channel). -/
inductive ExecErr (E : Type) where
  | call (e : E)
  | unwrapNone
  | todoBatch
  | todoLoad
  | todoStream

/-- The execution loop of call_with: thread an optional channel through
the node sequence; a Src produces the channel, Func and Store map it, the
Sink consumes it and breaks. -/
def exec {Chan E : Type} (channel : Option Chan) :
    List (PipeNode Chan E) → Except (ExecErr E) Unit
  | [] => .ok ()
  | node :: rest =>
    match node.imp with
    | .batch => .error .todoBatch
    | .func f =>
      match channel with
      | none => .error .unwrapNone
      | some c =>
        match f c with
        | .error e => .error (.call e)
        | .ok c' => exec (some c') rest
    | .sink s =>
      match channel with
      | none => .error .unwrapNone
      | some c =>
        match s c with
        | .error e => .error (.call e)
        | .ok () => .ok ()
    | .src s =>
      match s with
      | .error e => .error (.call e)
      | .ok c' => exec (some c') rest
    | .store sv =>
      match channel with
      | none => .error .todoLoad
      | some c =>
        match sv c with
        | .error e => .error (.call e)
        | .ok c' => exec (some c') rest
    | .stream => .error .todoStream

end Pipe

/-! ## The JSON codec of Value and Object, and the local store.

Serialization follows the serde derives of xlake-ast: Value is untagged,
Binary serializes through serde_with Base64 (standard alphabet, padded),
and a Dynamic number serializes as its string.  Deserialization follows
serde_json deserialize_any driving ValueVisitor: the visitor implements
bool, the integer widths, bytes and str; a JSON string therefore always
becomes Value::String (serde_json never produces a bytes call from JSON
text), and JSON null fails because the visitor implements visit_none but
not visit_unit, which is what serde_json calls for null. -/

namespace Codec

/-- A JSON document tree, as far as the Object codec can produce one.
Numbers on these paths are integers (see Number.fixed). -/
inductive Json where
  | null
  | bool (b : Bool)
  | num (n : Int)
  | str (s : String)
  | obj (entries : List (String × Json))

/-- The standard base64 alphabet (serde_with Base64 default). -/
def base64Alphabet : List Char :=
  "ABCDEFGHIJKLMNOPQRSTUVWXYZabcdefghijklmnopqrstuvwxyz0123456789+/".toList

/-- The base64 digit for a 6-bit value. -/
def base64Char (n : Nat) : Char := base64Alphabet.getD n 'A'

/-- Base64-encode a byte list, three bytes to four digits, padded with
the equals sign. -/
def base64Chars : List Nat → List Char
  | [] => []
  | [a] =>
    [base64Char (a / 4), base64Char (a % 4 * 16), '=', '=']
  | [a, b] =>
    [base64Char (a / 4), base64Char (a % 4 * 16 + b / 16), base64Char (b % 16 * 4), '=']
  | a :: b :: c :: rest =>
    base64Char (a / 4) :: base64Char (a % 4 * 16 + b / 16)
      :: base64Char (b % 16 * 4 + c / 64) :: base64Char (c % 64) :: base64Chars rest

/-- Base64 encoding as a string. -/
def base64Encode (bytes : List Nat) : String := String.mk (base64Chars bytes)

/-- Serialization of a Value (serde untagged): Null to null, Bool to a
JSON bool, a fixed Number to a JSON number, a dynamic Number to its
string, Binary to the base64 string, String to a JSON string. -/
def valueToJson : Value → Json
  | .null => .null
  | .bool b => .bool b
  | .number (.fixed n) => .num n
  | .number (.dynamic s) => .str s
  | .binary bytes => .str (base64Encode bytes)
  | .string s => .str s

/-- Serialization of an Object: a JSON object with one member per entry,
in iteration order. -/
def objectToJson (o : Object) : Json :=
  .obj (o.map (fun kv => (kv.1, valueToJson kv.2)))

/-- Deserialization of a Value (deserialize_any into ValueVisitor): a
bool, an integer and a string are accepted; null fails (the visitor has no
visit_unit) and a nested map fails (no visit_map). -/
def valueFromJson : Json → Except String Value
  | .null => .error "invalid type: null, expected a map object"
  | .bool b => .ok (.bool b)
  | .num n => .ok (.number (.fixed n))
  | .str s => .ok (.string s)
  | .obj _ => .error "invalid type: map, expected a map object"

/-- Deserialization of the members of a JSON object, in order; the first
failure aborts. -/
def entriesFromJson : List (String × Json) → Except String Object
  | [] => .ok []
  | kv :: rest =>
    match valueFromJson kv.2 with
    | .error e => .error e
    | .ok v =>
      match entriesFromJson rest with
      | .error e => .error e
      | .ok rest' => .ok ((kv.1, v) :: rest')

/-- Deserialization of an Object: each member's value is deserialized in
order. -/
def objectFromJson : Json → Except String Object
  | .obj entries => entriesFromJson entries
  | _ => .error "invalid type: expected a map"

/-- The state of a LocalStore: the files of its base directory, a mapping
from file name to the JSON document stored there. -/
abbrev LocalStoreState : Type := List (String × Json)

/-- The hash-to-file-name mapping of LocalStore::path. -/
def storePath (hash : String) : String := hash ++ ".json"

/-- LocalStore::write_item: serialize the object to JSON and write it to
the file derived from the hash. -/
def storeWrite (st : LocalStoreState) (hash : String) (o : Object) : LocalStoreState :=
  (storePath hash, objectToJson o) :: st

/-- Look a file up in the store state (most recent write wins). -/
def storeLookup : LocalStoreState → String → Option Json
  | [], _ => none
  | (name, j) :: rest, target => if name = target then some j else storeLookup rest target

/-- LocalStore::read_item: read the file derived from the hash and
deserialize it into an Object. -/
def storeRead (st : LocalStoreState) (hash : String) : Except String Object :=
  match storeLookup st (storePath hash) with
  | none => .error "No such file or directory"
  | some j => objectFromJson j

/-- The value a supported Value comes back as after one serialization
round trip: a Binary reappears as the base64 String of its bytes and a
dynamic Number reappears as its String; Bool, fixed Number and String are
unchanged (Null does not come back at all: deserialization fails). -/
def jsonNormalize : Value → Value
  | .binary bytes => .string (base64Encode bytes)
  | .number (.dynamic s) => .string s
  | v => v

/-- Whether deserialization can accept the serialized form of this value
(everything except Null on these paths). -/
def jsonSafe : Value → Bool
  | .null => false
  | _ => true

/-- Whether the value survives the round trip unchanged: Bool, fixed
Number and String do. -/
def jsonExact : Value → Bool
  | .bool _ => true
  | .number (.fixed _) => true
  | .string _ => true
  | _ => false

end Codec

/-! ## Claim-side forms.

These definitions restate, in the words of the specification, what some
claims predict; the theorems below compare them with the embedded source
functions. -/

namespace Layered

/-- The content a layer contributes after its producer has been awaited:
the future's output merged onto the layer's content (the specification's
resolved layer content).  The error case is never consulted under the
success hypothesis of the claims that use this. -/
def resolvedContent {E : Type} (layer : ObjectLayer E) : Object :=
  match layer.future with
  | none => layer.content
  | some (.ok out) => Object.append layer.content out
  | some (.error _) => layer.content

/-- A layer after its producer has been awaited. -/
def resolveLayer {E : Type} (layer : ObjectLayer E) : ObjectLayer E :=
  { content := resolvedContent layer, future := none, models := layer.models }

/-- The ordered merge of all layers' resolved contents, later layers
overwriting equal keys of earlier ones (the specification's flatten
content). -/
def mergedContentSpec {E : Type} (o : LazyObject E) : Object :=
  o.layers.foldl (fun acc layer => Object.append acc (resolvedContent layer)) []

/-- The union of all layers' models sets (the specification's flatten
models). -/
def unionModelsSpec {E : Type} (o : LazyObject E) : ModelSet :=
  o.layers.foldl (fun acc layer => ModelSet.union acc layer.models) []

/-- Whether some layer's producer fails. -/
def hasFailingFuture {E : Type} (o : LazyObject E) : Prop :=
  ∃ layer ∈ o.layers, ∃ e, layer.future = some (.error e)

end Layered

namespace Pipe

/-- The number of Src plans in a list. -/
def srcCount (plans : List Plan) : Nat :=
  (plans.filter (fun p => p.kind.isSrc)).length

/-- The number of Sink plans in a list. -/
def sinkCount (plans : List Plan) : Nat :=
  (plans.filter (fun p => p.kind.isSink)).length

/-- One if the option is set, zero otherwise. -/
def optCount (o : Option PlanKind) : Nat :=
  if o.isSome then 1 else 0

/-- The part of the loop body that precedes the Src and Sink bookkeeping
succeeds for this plan in this state: the factory resolves, the input
edge passes, the build succeeds and the built node matches the kind. -/
def FrontOk {Chan E : Type} (factories : List (PlanKind × PipeNodeFactory Chan E))
    (st : CompileState Chan E) (p : Plan) : Prop :=
  ∃ factory imp,
    lookupFactory factories p.kind = some factory ∧
    checkInput st factory.input p.kind = .ok () ∧
    factory.build p.args = .ok imp ∧
    imp.typeName = p.kind.typeName

/-- Invariant of the compilation loop: either nothing has been compiled
yet and no Src was seen, or the first compiled node is a Src node. -/
def FirstIsSrc {Chan E : Type} (st : CompileState Chan E) : Prop :=
  (st.nodes = [] ∧ st.termInput = none) ∨
  ∃ k a c rest, st.nodes = { kind := k, args := a, imp := .src c } :: rest

end Pipe

/-! ## Concrete instances used by the witnesses and counterexamples. -/

namespace Examples

open Pipe

/-- A ready single-layer record whose content has one boolean field. -/
def readyRecord : Layered.LazyObject String :=
  Layered.LazyObject.ofLayer { content := [("k", Value.bool true)], future := none, models := [] }

/-- A successful producer yielding the empty object. -/
def emptyFuture : Except String Object := .ok []

/-- A store over an association list from hash strings to stored objects:
contains is membership, read fails on a missing key, write prepends. -/
def listStore : Core.PipeStore (List (String × Object)) String :=
  { contains := fun st h => .ok ((st.lookup h).isSome)
    readItem := fun st h =>
      match st.lookup h with
      | some o => .ok o
      | none => .error "not found"
    writeItem := fun st h o => .ok ((h, o) :: st) }

/-- A store state holding one object under hash h1. -/
def storeSt : List (String × Object) := [("h1", [("x", Value.number (Number.fixed 42))])]

/-- A ready record carrying hash h1 (a cache hit for storeSt). -/
def hitReady : Core.LazyObject String :=
  { future := none, content := [("hash", Value.string "h1")] }

/-- A non-ready record carrying hash h1 and a pending producer. -/
def hitPending : Core.LazyObject String :=
  { future := some (.ok [("y", Value.bool false)]), content := [("hash", Value.string "h1")] }

/-- A record with no hash field. -/
def noHashRecord : Core.LazyObject String :=
  { future := none, content := [("a", Value.bool true)] }

/-- A record carrying a fresh hash h2 (a cache miss for storeSt). -/
def missRecord : Core.LazyObject String :=
  { future := none, content := [("hash", Value.string "h2")] }

/-- An edge matching the initial rolling context. -/
def neutralEdge : PipeEdge :=
  { batch := batchEngineName, model := none, stream := streamEngineName }

/-- A source factory for the example pipelines. -/
def srcFactory : PipeNodeFactory Nat String :=
  { kind := .src "file"
    input := neutralEdge
    output := { batch := batchEngineName, model := some ["binary"], stream := streamEngineName }
    build := fun _ => .ok (.src (.ok 0)) }

/-- A sink factory for the example pipelines. -/
def sinkFactory : PipeNodeFactory Nat String :=
  { kind := .sink "stdout"
    input := neutralEdge
    output := neutralEdge
    build := fun _ => .ok (.sink (fun _ => .ok ())) }

/-- A function factory whose input edge disagrees with the rolling
context on every axis: its batch axis differs from the context batch, its
model axis requires a model the context does not supply, and its stream
axis differs from the context stream. -/
def mismatchedFuncFactory : PipeNodeFactory Nat String :=
  { kind := .func "pdf" "conv"
    input := { batch := "some-other-engine", model := some ["pdf"], stream := "some-other-stream" }
    output := neutralEdge
    build := fun _ => .ok (.func (fun c => .ok c)) }

/-- The example registry. -/
def exFactories : List (PlanKind × PipeNodeFactory Nat String) :=
  [ (PlanKind.src "file", srcFactory)
  , (PlanKind.sink "stdout", sinkFactory)
  , (PlanKind.func "pdf" "conv", mismatchedFuncFactory) ]

/-- A well-formed two-node pipeline. -/
def okPlans : List Plan :=
  [ { kind := .src "file", args := [] }
  , { kind := .sink "stdout", args := [] } ]

/-- The node sequence the compiler produces for okPlans. -/
def okNodes : List (PipeNode Nat String) :=
  [ { kind := .src "file", args := [], imp := .src (.ok 0) }
  , { kind := .sink "stdout", args := [], imp := .sink (fun _ => .ok ()) } ]

/-- A pipeline whose middle node's input edge mismatches the rolling
context on the batch, model-membership and stream axes. -/
def mismatchedPlans : List Plan :=
  [ { kind := .src "file", args := [] }
  , { kind := .func "pdf" "conv", args := [] }
  , { kind := .sink "stdout", args := [] } ]

/-- An object holding a single Binary value. -/
def binaryObject : Object := [("k", Value.binary [0])]

/-- A layered record with no hash field. -/
def noHashLayered : Layered.LazyObject String :=
  Layered.LazyObject.ofLayer { content := [], future := none, models := [] }

/-- A layered record whose hash field holds a Number, not a String. -/
def mismatchLayered : Layered.LazyObject String :=
  Layered.LazyObject.ofLayer
    { content := [("hash", Value.number (Number.fixed 5))], future := none, models := [] }

/-- A two-layer record: a ready base layer and a top layer whose producer
yields an object overwriting one key of the base. -/
def twoLayered : Layered.LazyObject String :=
  { layers :=
      [ { content := [("a", Value.bool true), ("b", Value.bool true)]
          future := none
          models := ["file"] }
      , { content := [("c", Value.bool true)]
          future := some (.ok [("b", Value.bool false)])
          models := ["doc"] } ] }

/-- A record whose single layer has a failing producer. -/
def failingLayered : Layered.LazyObject String :=
  Layered.LazyObject.ofLayer { content := [], future := some (.error "boom"), models := [] }

/-- A compile state as reached right after a Src was recorded. -/
def stAfterSrcW : CompileState Nat String :=
  { inputBatch := batchEngineName
    inputModel := ["binary"]
    inputStream := streamEngineName
    nodes := []
    termInput := some (.src "file")
    termOutput := none }

/-- A compile state as reached right after the Sink was recorded. -/
def stAfterSinkW : CompileState Nat String :=
  { stAfterSrcW with termOutput := some (.sink "stdout") }

/-- The compile state the loop reaches after processing only the source
plan of okPlans. -/
def stSrcOnly : CompileState Nat String :=
  { inputBatch := batchEngineName
    inputModel := ["binary"]
    inputStream := streamEngineName
    nodes := [{ kind := .src "file", args := [], imp := .src (.ok 0) }]
    termInput := some (.src "file")
    termOutput := none }

end Examples

/-! ## Shared lemmas. -/

theorem object_append_nil (o : Object) : Object.append [] o = o := rfl

theorem modelset_union_nil (s : ModelSet) : ModelSet.union [] s = s := rfl

namespace Layered

theorem mergeWithoutFuture_future {E : Type} (a b : ObjectLayer E) :
    (ObjectLayer.mergeWithoutFuture a b).future = a.future := rfl

theorem foldl_merge_eq {E : Type} (ls : List (ObjectLayer E)) (acc : ObjectLayer E) :
    ls.foldl ObjectLayer.mergeWithoutFuture acc
      = { content := ls.foldl (fun a l => Object.append a l.content) acc.content
          future := acc.future
          models := ls.foldl (fun a l => ModelSet.union a l.models) acc.models } := by
  induction ls generalizing acc with
  | nil => rfl
  | cons l rest ih =>
    simp only [List.foldl_cons]
    rw [ih]
    rfl

theorem takeFuture_ready {E : Type} (l : ObjectLayer E) (h : l.future = none) :
    ObjectLayer.takeFuture l = .ok l := by
  simp [ObjectLayer.takeFuture, h]

theorem takeFuture_ok {E : Type} (l : ObjectLayer E)
    (h : ∀ e, l.future ≠ some (.error e)) :
    ObjectLayer.takeFuture l = .ok (resolveLayer l) := by
  obtain ⟨c, fut, ms⟩ := l
  cases fut with
  | none => simp [ObjectLayer.takeFuture, resolveLayer, resolvedContent]
  | some f =>
    cases f with
    | ok out => simp [ObjectLayer.takeFuture, resolveLayer, resolvedContent]
    | error e => exact absurd rfl (h e)

theorem takeAllFutures_ok {E : Type} (ls : List (ObjectLayer E))
    (h : ∀ l ∈ ls, ∀ e, l.future ≠ some (.error e)) :
    takeAllFutures ls = .ok (ls.map resolveLayer) := by
  induction ls with
  | nil => rfl
  | cons l rest ih =>
    have hhead : ObjectLayer.takeFuture l = .ok (resolveLayer l) :=
      takeFuture_ok l (h l (by simp))
    have htail := ih (fun l' hm => h l' (by simp [hm]))
    simp [takeAllFutures, hhead, htail]

theorem takeAllFutures_err {E : Type} (ls : List (ObjectLayer E))
    (h : ∃ l ∈ ls, ∃ e, l.future = some (.error e)) :
    ∃ e, takeAllFutures ls = .error e := by
  induction ls with
  | nil => simp at h
  | cons l rest ih =>
    cases htf : ObjectLayer.takeFuture l with
    | error e => exact ⟨e, by simp [takeAllFutures, htf]⟩
    | ok l' =>
      obtain ⟨lf, hmem, e, hfail⟩ := h
      rcases List.mem_cons.mp hmem with hl | hrest
      · subst hl
        rw [show ObjectLayer.takeFuture lf = .error e by simp [ObjectLayer.takeFuture, hfail]]
          at htf
        cases htf
      · obtain ⟨e', he'⟩ := ih ⟨lf, hrest, e, hfail⟩
        exact ⟨e', by simp [takeAllFutures, htf, he']⟩

/-- Claim C3: flatten awaits every layer's deferred producer in insertion
order, failing (with the partial state discarded) when any producer
fails, and otherwise returns a single-layer LazyObject with no pending
future whose content is the ordered merge of all layers' resolved
contents, keys of later layers overwriting equal keys of earlier layers,
and whose models set is the union of all layers' models sets. -/
theorem flatten_is_ordered_merge {E : Type} (o : LazyObject E) :
    ((∀ layer ∈ o.layers, ∀ e, layer.future ≠ some (.error e)) →
      o.flatten = .ok { layers :=
        [{ content := mergedContentSpec o, future := none, models := unionModelsSpec o }] }) ∧
    (hasFailingFuture o → ∃ e, o.flatten = .error e) := by
  constructor
  · intro h
    have hm := takeAllFutures_ok o.layers h
    simp only [LazyObject.flatten, hm, LazyObject.flattenWithoutFutures, LazyObject.ofLayer]
    rw [foldl_merge_eq]
    simp [List.foldl_map, ObjectLayer.emptyAcc, mergedContentSpec, unionModelsSpec,
      resolveLayer]
  · intro h
    obtain ⟨e, he⟩ := takeAllFutures_err o.layers h
    exact ⟨e, by simp [LazyObject.flatten, he]⟩

/-- Witness for the C3 theorem at a concrete two-layer record and a
concrete failing record. -/
theorem flatten_is_ordered_merge_witness :
    Examples.twoLayered.flatten = .ok { layers :=
      [{ content := mergedContentSpec Examples.twoLayered
         future := none
         models := unionModelsSpec Examples.twoLayered }] } ∧
    ∃ e, Examples.failingLayered.flatten = .error e := by
  constructor
  · refine (flatten_is_ordered_merge Examples.twoLayered).1 ?_
    intro layer hmem e
    simp only [Examples.twoLayered, List.mem_cons, List.not_mem_nil, or_false] at hmem
    rcases hmem with h | h <;> subst h <;> simp
  · exact (flatten_is_ordered_merge Examples.failingLayered).2
      ⟨{ content := [], future := some (.error "boom"), models := [] },
        by simp [Examples.failingLayered, LazyObject.ofLayer], "boom", rfl⟩

/-- Claim C9: flattening twice gives the same result as flattening once,
in content and models alike; in particular flatten is idempotent on ready
objects. -/
theorem flatten_idempotent {E : Type} (o : LazyObject E) :
    o.flatten.bind LazyObject.flatten = o.flatten := by
  cases hm : takeAllFutures o.layers with
  | error e =>
    simp [LazyObject.flatten, hm, Except.bind]
  | ok layers =>
    have hfl : o.flatten
        = .ok (LazyObject.ofLayer (LazyObject.flattenWithoutFutures { layers := layers })) := by
      simp [LazyObject.flatten, hm]
    set L0 := LazyObject.flattenWithoutFutures { layers := layers } with hL0
    have hfut : L0.future = none := by
      rw [hL0, LazyObject.flattenWithoutFutures, foldl_merge_eq]
      rfl
    have hready : (LazyObject.ofLayer L0).flatten = .ok (LazyObject.ofLayer L0) := by
      have h1 : takeAllFutures [L0] = .ok [L0] := by
        simp [takeAllFutures, takeFuture_ready L0 hfut]
      have h2 : LazyObject.flattenWithoutFutures { layers := [L0] } = L0 := by
        simp only [LazyObject.flattenWithoutFutures, List.foldl_cons, List.foldl_nil]
        show ObjectLayer.mergeWithoutFuture ObjectLayer.emptyAcc L0 = L0
        obtain ⟨c, fut, ms⟩ := L0
        simp only at hfut
        simp [ObjectLayer.mergeWithoutFuture, ObjectLayer.emptyAcc, hfut,
          object_append_nil, modelset_union_nil]
      simp [LazyObject.flatten, LazyObject.ofLayer, h1, h2]
    rw [hfl]
    simpa [Except.bind] using hready

/-- Claim C7 (amended): append_future pushes a fresh layer holding empty
content, the supplied future and the supplied models when the top layer
already has a pending future, and attaches the future to the top layer,
leaving that layer's models unchanged, when the top layer is ready. -/
theorem appendFuture_behaviour {E : Type} (o : LazyObject E)
    (init : List (ObjectLayer E)) (top : ObjectLayer E)
    (fut : Except E Object) (ms : ModelSet)
    (h : o.layers = init ++ [top]) :
    (top.future = none →
      (o.appendFuture fut ms).layers = init ++ [{ top with future := some fut }]) ∧
    (∀ g, top.future = some g →
      (o.appendFuture fut ms).layers
        = o.layers ++ [{ content := [], future := some fut, models := ms }]) := by
  constructor
  · intro hready
    simp [LazyObject.appendFuture, h, List.getLast?_concat, List.dropLast_concat, hready]
  · intro g hpending
    simp [LazyObject.appendFuture, h, List.getLast?_concat, hpending]

/-- Witness for the amended C7 theorem at a concrete ready record and a
concrete pending one. -/
theorem appendFuture_behaviour_witness :
    ((Examples.readyRecord.appendFuture Examples.emptyFuture ["m"]).layers
      = [{ content := [("k", Value.bool true)], future := some Examples.emptyFuture,
           models := [] }]) ∧
    ((Examples.failingLayered.appendFuture Examples.emptyFuture ["m"]).layers
      = Examples.failingLayered.layers
          ++ [{ content := [], future := some Examples.emptyFuture, models := ["m"] }]) := by
  constructor
  · exact (appendFuture_behaviour Examples.readyRecord []
      { content := [("k", Value.bool true)], future := none, models := [] }
      Examples.emptyFuture ["m"] rfl).1 rfl
  · exact (appendFuture_behaviour Examples.failingLayered []
      { content := [], future := some (.error "boom"), models := [] }
      Examples.emptyFuture ["m"] rfl).2 (.error "boom") rfl

/-- Counterexample to claim C7 as stated: on a ready top layer the source
attaches the future but does not extend the layer's models with the
supplied models; after appending a future with supplied models
containing the name m, no layer of the result carries m. -/
theorem appendFuture_models_dropped :
    Examples.readyRecord.isReady = true ∧
    (Examples.readyRecord.appendFuture Examples.emptyFuture ["m"]).layers.all
      (fun layer => !(layer.models.contains "m")) = true := by
  constructor
  · rfl
  · rfl

/-- Claim C8: the cast of the hash model succeeds exactly when the raw
value at the key hash is present; a variant mismatch of the stored value
does not fail the cast but surfaces as the typed String getter returning
none; a failing cast returns the original record unchanged. -/
theorem castHash_presence {E : Type} :
    (∀ o : LazyObject E, (castHash o).isOk = (o.getRaw "hash").isSome) ∧
    (∀ o o' : LazyObject E, castHash o = .error o' → o' = o) ∧
    (∀ (o : LazyObject E) (v : Value), o.getRaw "hash" = some v → v.isString = false →
      (castHash o).isOk = true ∧ o.getString "hash" = none) := by
  refine ⟨fun o => ?_, fun o o' h => ?_, fun o v hv hs => ?_⟩
  · cases hval : validateHash o with
    | true =>
      have h' : (o.getRaw "hash").isSome = true := by simpa [validateHash] using hval
      simp [castHash, hval, h', Except.isOk, Except.toBool]
    | false =>
      have h' : (o.getRaw "hash").isSome = false := by simpa [validateHash] using hval
      simp [castHash, hval, h', Except.isOk, Except.toBool]
  · cases hval : validateHash o with
    | true => simp [castHash, hval] at h
    | false =>
      simp only [castHash, hval, Bool.false_eq_true, if_false, Except.error.injEq] at h
      exact h.symm
  · constructor
    · simp [castHash, validateHash, hv, Except.isOk, Except.toBool]
    · cases v with
      | string s => simp [Value.isString] at hs
      | null => simp [LazyObject.getString, hv]
      | bool b => simp [LazyObject.getString, hv]
      | number n => simp [LazyObject.getString, hv]
      | binary bs => simp [LazyObject.getString, hv]

/-- Witness for the C8 theorem: a record whose hash field holds a Number
casts fine but the typed getter yields none, and a record with no hash
field is returned unchanged by the failing cast. -/
theorem castHash_presence_witness :
    ((castHash Examples.mismatchLayered).isOk = true
      ∧ Examples.mismatchLayered.getString "hash" = none)
    ∧ Examples.noHashLayered = Examples.noHashLayered := by
  constructor
  · exact (castHash_presence (E := String)).2.2 Examples.mismatchLayered
      (Value.number (Number.fixed 5)) rfl rfl
  · exact (castHash_presence (E := String)).2.1 Examples.noHashLayered
      Examples.noHashLayered rfl

end Layered

namespace Core

/-- Claim C1 (amended): on a cache hit (the record carries a String hash
h and contains(h) holds), a record with no pending future is forwarded
unchanged, while a record with a pending future has that future and its
current content dropped and is replaced by a record whose content is
read(h), awaited immediately inside save; a failing read fails save. -/
theorem save_hit_behaviour {σ E : Type} (S : PipeStore σ E) (st : σ)
    (item : LazyObject E) (h : String)
    (hhash : item.content.find? "hash" = some (.string h))
    (hhit : S.contains st h = .ok true) :
    (item.future = none → saveStep S st item = .ok (st, item)) ∧
    (∀ f o, item.future = some f → S.readItem st h = .ok o →
      saveStep S st item = .ok (st, LazyObject.ofObject o)) ∧
    (∀ f e, item.future = some f → S.readItem st h = .error e →
      saveStep S st item = .error (.err e)) := by
  refine ⟨fun hready => ?_, fun f o hf hr => ?_, fun f e hf hr => ?_⟩
  · simp [saveStep, hhash, hhit, hready]
  · simp [saveStep, hhash, hhit, hf, hr]
  · simp [saveStep, hhash, hhit, hf, hr]

/-- Witness for the amended C1 theorem: the concrete store hits on both
the ready and the pending record. -/
theorem save_hit_behaviour_witness :
    (saveStep Examples.listStore Examples.storeSt Examples.hitReady
      = .ok (Examples.storeSt, Examples.hitReady)) ∧
    (saveStep Examples.listStore Examples.storeSt Examples.hitPending
      = .ok (Examples.storeSt,
          LazyObject.ofObject [("x", Value.number (Number.fixed 42))])) := by
  constructor
  · exact (save_hit_behaviour Examples.listStore Examples.storeSt Examples.hitReady
      "h1" rfl rfl).1 rfl
  · exact (save_hit_behaviour Examples.listStore Examples.storeSt Examples.hitPending
      "h1" rfl rfl).2.1 (.ok [("y", Value.bool false)])
      [("x", Value.number (Number.fixed 42))] rfl rfl

/-- Counterexample to claim C1 as stated: on a hit, the ready record is
forwarded unchanged rather than having its materialisation replaced by a
deferred read (its output has no future and its materialisation differs
from the stored object), and the pending record is not forwarded
unchanged (its pending future is dropped and its content replaced by the
stored object). -/
theorem save_hit_claim_false :
    (saveStep Examples.listStore Examples.storeSt Examples.hitReady
      = .ok (Examples.storeSt, Examples.hitReady)) ∧
    Examples.hitReady.future = none ∧
    Examples.hitReady.pull = .ok [("hash", Value.string "h1")] ∧
    Examples.listStore.readItem Examples.storeSt "h1"
      = .ok [("x", Value.number (Number.fixed 42))] ∧
    ([("hash", Value.string "h1")] : Object) ≠ [("x", Value.number (Number.fixed 42))] ∧
    (saveStep Examples.listStore Examples.storeSt Examples.hitPending
      = .ok (Examples.storeSt,
          LazyObject.ofObject [("x", Value.number (Number.fixed 42))])) ∧
    (LazyObject.ofObject [("x", Value.number (Number.fixed 42))] : LazyObject String).content
      ≠ Examples.hitPending.content := by
  refine ⟨rfl, rfl, rfl, rfl, by decide, rfl, by decide⟩

/-- Claim C6: a record that does not provide the hash model is forwarded
unchanged; a record providing hash h with contains(h) false is
materialised (its pull is awaited), the materialised content is written
under h, and the materialised record is forwarded; the stream is
processed record by record, in order, threading the store state. -/
theorem save_miss_behaviour {σ E : Type} (S : PipeStore σ E) :
    (∀ (st : σ) (item : LazyObject E),
      item.content.find? "hash" = none → saveStep S st item = .ok (st, item)) ∧
    (∀ (st st' : σ) (item : LazyObject E) (h : String) (content : Object),
      item.content.find? "hash" = some (.string h) →
      S.contains st h = .ok false →
      item.pull = .ok content →
      S.writeItem st h content = .ok st' →
      saveStep S st item = .ok (st', LazyObject.ofObject content)) ∧
    (∀ (st st' st'' : σ) (item item' : LazyObject E) (rest rest' : List (LazyObject E)),
      saveStep S st item = .ok (st', item') →
      save S st' rest = .ok (st'', rest') →
      save S st (item :: rest) = .ok (st'', item' :: rest')) := by
  refine ⟨fun st item hnone => ?_, fun st st' item h content hh hc hp hw => ?_,
    fun st st' st'' item item' rest rest' hstep hrest => ?_⟩
  · simp [saveStep, hnone]
  · simp [saveStep, hh, hc, hp, hw]
  · simp [save, hstep, hrest]

/-- Witness for the C6 theorem: the hashless record passes through, the
miss record is pulled, written and forwarded, and a two-record stream is
processed in order. -/
theorem save_miss_behaviour_witness :
    (saveStep Examples.listStore Examples.storeSt Examples.noHashRecord
      = .ok (Examples.storeSt, Examples.noHashRecord)) ∧
    (saveStep Examples.listStore Examples.storeSt Examples.missRecord
      = .ok (("h2", [("hash", Value.string "h2")]) :: Examples.storeSt,
          LazyObject.ofObject [("hash", Value.string "h2")])) ∧
    (save Examples.listStore Examples.storeSt [Examples.noHashRecord]
      = .ok (Examples.storeSt, [Examples.noHashRecord])) := by
  refine ⟨?_, ?_, ?_⟩
  · exact (save_miss_behaviour Examples.listStore).1 Examples.storeSt
      Examples.noHashRecord rfl
  · exact (save_miss_behaviour Examples.listStore).2.1 Examples.storeSt
      (("h2", [("hash", Value.string "h2")]) :: Examples.storeSt)
      Examples.missRecord "h2" [("hash", Value.string "h2")] rfl rfl rfl rfl
  · exact (save_miss_behaviour Examples.listStore).2.2 Examples.storeSt
      Examples.storeSt Examples.storeSt Examples.noHashRecord Examples.noHashRecord
      [] [] ((save_miss_behaviour Examples.listStore).1 Examples.storeSt
        Examples.noHashRecord rfl) rfl

end Core

namespace Codec

theorem value_roundtrip (v : Value) (h : jsonSafe v = true) :
    valueFromJson (valueToJson v) = .ok (jsonNormalize v) := by
  cases v with
  | null => simp [jsonSafe] at h
  | bool b => rfl
  | number n => cases n <;> rfl
  | binary bs => rfl
  | string s => rfl

theorem object_roundtrip_normalized (o : Object)
    (h : ∀ kv ∈ o, jsonSafe kv.2 = true) :
    objectFromJson (objectToJson o) = .ok (o.map (fun kv => (kv.1, jsonNormalize kv.2))) := by
  induction o with
  | nil => rfl
  | cons kv rest ih =>
    have hhead : jsonSafe kv.2 = true := h kv (by simp)
    have htail := ih (fun kv' hm => h kv' (by simp [hm]))
    simp only [objectToJson, objectFromJson, List.map_cons] at htail ⊢
    simp [entriesFromJson, value_roundtrip kv.2 hhead, htail]

theorem jsonNormalize_exact (v : Value) (h : jsonExact v = true) : jsonNormalize v = v := by
  cases v with
  | null => simp [jsonExact] at h
  | bool b => rfl
  | number n =>
    cases n with
    | fixed n => rfl
    | dynamic s => simp [jsonExact] at h
  | binary bs => simp [jsonExact] at h
  | string s => rfl

/-- Claim C4 (amended): reading back a written object deserializes
exactly what was serialized; for objects whose values avoid Null every
value comes back jsonNormalize-d, meaning a Binary value reappears as the
base64 String of its bytes (and a dynamic Number as its String), and only
objects whose values are Bool, fixed Number or String come back equal. -/
theorem store_roundtrip {st : LocalStoreState} {h : String} {o : Object} :
    (storeRead (storeWrite st h o) h = objectFromJson (objectToJson o)) ∧
    ((∀ kv ∈ o, jsonSafe kv.2 = true) →
      storeRead (storeWrite st h o) h
        = .ok (o.map (fun kv => (kv.1, jsonNormalize kv.2)))) ∧
    ((∀ kv ∈ o, jsonExact kv.2 = true) →
      storeRead (storeWrite st h o) h = .ok o) := by
  have hbase : storeRead (storeWrite st h o) h = objectFromJson (objectToJson o) := by
    simp [storeRead, storeWrite, storeLookup]
  refine ⟨hbase, fun hsafe => ?_, fun hexact => ?_⟩
  · rw [hbase]
    exact object_roundtrip_normalized o hsafe
  · rw [hbase]
    have hsafe : ∀ kv ∈ o, jsonSafe kv.2 = true := by
      intro kv hm
      have hx := hexact kv hm
      cases hv : kv.2 with
      | null => rw [hv] at hx; simp [jsonExact] at hx
      | bool b => simp [jsonSafe]
      | number n => simp [jsonSafe]
      | binary bs => rw [hv] at hx; simp [jsonExact] at hx
      | string s => simp [jsonSafe]
    rw [object_roundtrip_normalized o hsafe]
    congr 1
    have : ∀ l : Object, (∀ kv ∈ l, jsonExact kv.2 = true) →
        l.map (fun kv => (kv.1, jsonNormalize kv.2)) = l := by
      intro l hl
      induction l with
      | nil => rfl
      | cons kv rest ih =>
        have hk := hl kv (by simp)
        have hr := ih (fun kv' hm => hl kv' (by simp [hm]))
        simp [jsonNormalize_exact kv.2 hk, hr]
    exact this o hexact

/-- Witness for the amended C4 theorem at a concrete object holding a
Bool, a fixed Number and a String. -/
theorem store_roundtrip_witness :
    storeRead (storeWrite [] "w"
        [("a", Value.bool true), ("b", Value.number (Number.fixed 7)), ("c", Value.string "s")])
      "w"
      = .ok [("a", Value.bool true), ("b", Value.number (Number.fixed 7)),
             ("c", Value.string "s")] := by
  exact (@store_roundtrip [] "w"
    [("a", Value.bool true), ("b", Value.number (Number.fixed 7)),
     ("c", Value.string "s")]).2.2 (by decide)

/-- Counterexample to claim C4 as stated: an object holding one Binary
value does not read back equal; the Binary byte 0 reappears as the String
holding its base64 form. -/
theorem binary_not_roundtripped :
    storeRead (storeWrite [] "h" Examples.binaryObject) "h"
      = .ok [("k", Value.string "AA==")] ∧
    ([("k", Value.string "AA==")] : Object) ≠ Examples.binaryObject := by
  constructor
  · rfl
  · decide

end Codec

namespace Pipe

theorem applyOutput_termInput {Chan E : Type} (st : CompileState Chan E) (oe : PipeEdge) :
    (applyOutput st oe).termInput = st.termInput := rfl

theorem applyOutput_termOutput {Chan E : Type} (st : CompileState Chan E) (oe : PipeEdge) :
    (applyOutput st oe).termOutput = st.termOutput := rfl

theorem applyOutput_nodes {Chan E : Type} (st : CompileState Chan E) (oe : PipeEdge) :
    (applyOutput st oe).nodes = st.nodes := rfl

theorem checkInput_eq {Chan E : Type} (st : CompileState Chan E) (ie : PipeEdge)
    (k : PlanKind) :
    checkInput st ie k
      = match ie.model with
        | some _ =>
          if st.inputModel.isEmpty then .error (.implicitModel k) else .ok ()
        | none => .ok () := by
  cases h : ie.model with
  | none => simp [checkInput, validateTypes, h]
  | some ms =>
    by_cases he : st.inputModel.isEmpty <;> simp [checkInput, validateTypes, h, he]

theorem checkInput_err {Chan E : Type} {st : CompileState Chan E} {ie : PipeEdge}
    {k : PlanKind} {e : CompileErr E} (h : checkInput st ie k = .error e) :
    e = .implicitModel k := by
  rw [checkInput_eq] at h
  split at h
  · split at h
    · exact (Except.error.inj h).symm
    · simp at h
  · simp at h

theorem checkSrc_ok {Chan E : Type} {st st' : CompileState Chan E} {k : PlanKind}
    (h : checkSrc st k = .ok st') :
    st'.termOutput = st.termOutput ∧ st'.nodes = st.nodes ∧
    optCount st'.termInput = optCount st.termInput + (if k.isSrc then 1 else 0) ∧
    (st.termInput = none → ∃ n, k = .src n) := by
  cases k
  case src n =>
    cases hti : st.termInput with
    | some prev =>
      unfold checkSrc at h
      rw [hti] at h
      simp at h
    | none =>
      unfold checkSrc at h
      rw [hti] at h
      simp only [Except.ok.injEq] at h
      subst h
      refine ⟨rfl, rfl, ?_, fun _ => ⟨n, rfl⟩⟩
      simp [optCount, PlanKind.isSrc, hti]
  all_goals (
    cases hti : st.termInput with
    | none =>
      unfold checkSrc at h
      rw [hti] at h
      simp at h
    | some prev =>
      unfold checkSrc at h
      rw [hti] at h
      simp only [Except.ok.injEq] at h
      subst h
      refine ⟨rfl, rfl, ?_, fun hnone => by cases hnone⟩
      simp [optCount, PlanKind.isSrc, hti])

theorem checkSink_ok {Chan E : Type} {st st' : CompileState Chan E} {k : PlanKind}
    (h : checkSink st k = .ok st') :
    st'.termInput = st.termInput ∧ st'.nodes = st.nodes ∧
    optCount st'.termOutput = optCount st.termOutput + (if k.isSink then 1 else 0) := by
  cases k
  case sink n =>
    cases hto : st.termOutput with
    | some prev =>
      unfold checkSink at h
      rw [hto] at h
      simp at h
    | none =>
      unfold checkSink at h
      rw [hto] at h
      simp only [Except.ok.injEq] at h
      subst h
      refine ⟨rfl, rfl, ?_⟩
      simp [optCount, PlanKind.isSink, hto]
  all_goals (
    cases hto : st.termOutput with
    | some prev =>
      unfold checkSink at h
      rw [hto] at h
      simp at h
    | none =>
      unfold checkSink at h
      rw [hto] at h
      simp only [Except.ok.injEq] at h
      subst h
      refine ⟨rfl, rfl, ?_⟩
      simp [optCount, PlanKind.isSink, hto])

theorem checkSrc_err {Chan E : Type} {st : CompileState Chan E} {k : PlanKind}
    {e : CompileErr E} (h : checkSrc st k = .error e) :
    (∃ prev, e = .duplicatedSrc prev k) ∨ e = .linkBeforeSrc k := by
  cases k
  case src n =>
    cases hti : st.termInput with
    | some prev =>
      unfold checkSrc at h
      rw [hti] at h
      exact Or.inl ⟨prev, (Except.error.inj h).symm⟩
    | none =>
      unfold checkSrc at h
      rw [hti] at h
      simp at h
  all_goals (
    cases hti : st.termInput with
    | some prev =>
      unfold checkSrc at h
      rw [hti] at h
      simp at h
    | none =>
      unfold checkSrc at h
      rw [hti] at h
      exact Or.inr (Except.error.inj h).symm)

theorem checkSink_err {Chan E : Type} {st : CompileState Chan E} {k : PlanKind}
    {e : CompileErr E} (h : checkSink st k = .error e) :
    (∃ prev, e = .duplicatedSink prev k) ∨ e = .linkAfterSink k := by
  cases k
  case sink n =>
    cases hto : st.termOutput with
    | some prev =>
      unfold checkSink at h
      rw [hto] at h
      exact Or.inl ⟨prev, (Except.error.inj h).symm⟩
    | none =>
      unfold checkSink at h
      rw [hto] at h
      simp at h
  all_goals (
    cases hto : st.termOutput with
    | some prev =>
      unfold checkSink at h
      rw [hto] at h
      exact Or.inr (Except.error.inj h).symm
    | none =>
      unfold checkSink at h
      rw [hto] at h
      simp at h)

theorem compileStep_ok_parts {Chan E : Type}
    {fs : List (PlanKind × PipeNodeFactory Chan E)} {st st' : CompileState Chan E}
    {p : Plan} (h : compileStep fs st p = .ok st') :
    ∃ factory imp st2 st3,
      lookupFactory fs p.kind = some factory ∧
      checkInput st factory.input p.kind = .ok () ∧
      factory.build p.args = .ok imp ∧
      imp.typeName = p.kind.typeName ∧
      checkSrc (applyOutput st factory.output) p.kind = .ok st2 ∧
      checkSink st2 p.kind = .ok st3 ∧
      st' = { st3 with nodes := st3.nodes ++ [{ kind := p.kind, args := p.args, imp := imp }] } := by
  unfold compileStep at h
  cases hlk : lookupFactory fs p.kind with
  | none => simp [hlk] at h
  | some factory =>
    simp only [hlk] at h
    cases hci : checkInput st factory.input p.kind with
    | error e => simp [hci] at h
    | ok u =>
      cases u
      simp only [hci] at h
      cases hb : factory.build p.args with
      | error e => simp [hb] at h
      | ok imp =>
        simp only [hb] at h
        by_cases ht : imp.typeName = p.kind.typeName
        · rw [if_neg (by simp [ht])] at h
          cases hsrc : checkSrc (applyOutput st factory.output) p.kind with
          | error e => simp [hsrc] at h
          | ok st2 =>
            simp only [hsrc] at h
            cases hsink : checkSink st2 p.kind with
            | error e => simp [hsink] at h
            | ok st3 =>
              simp only [hsink] at h
              exact ⟨factory, imp, st2, st3, rfl, hci, hb, ht, hsrc, hsink,
                (Except.ok.inj h).symm⟩
        · rw [if_pos (by simp [ht])] at h
          simp at h

theorem compileStep_err_shape {Chan E : Type}
    {fs : List (PlanKind × PipeNodeFactory Chan E)} {st : CompileState Chan E}
    {p : Plan} {e : CompileErr E} (h : compileStep fs st p = .error e) :
    e = .unknownNode p.kind ∨ e = .implicitModel p.kind ∨
    (∃ e0, e = .buildFailed e0) ∨ (∃ a b, e = .nodeKindMismatch a b) ∨
    (∃ prev, e = .duplicatedSrc prev p.kind) ∨ e = .linkBeforeSrc p.kind ∨
    (∃ prev, e = .duplicatedSink prev p.kind) ∨ e = .linkAfterSink p.kind := by
  unfold compileStep at h
  cases hlk : lookupFactory fs p.kind with
  | none =>
    simp only [hlk, Except.error.injEq] at h
    exact Or.inl h.symm
  | some factory =>
    simp only [hlk] at h
    cases hci : checkInput st factory.input p.kind with
    | error e0 =>
      simp only [hci, Except.error.injEq] at h
      subst h
      exact Or.inr (Or.inl (checkInput_err hci))
    | ok u =>
      cases u
      simp only [hci] at h
      cases hb : factory.build p.args with
      | error e0 =>
        simp only [hb, Except.error.injEq] at h
        exact Or.inr (Or.inr (Or.inl ⟨e0, h.symm⟩))
      | ok imp =>
        simp only [hb] at h
        by_cases ht : imp.typeName = p.kind.typeName
        · rw [if_neg (by simp [ht])] at h
          cases hsrc : checkSrc (applyOutput st factory.output) p.kind with
          | error e0 =>
            simp only [hsrc, Except.error.injEq] at h
            subst h
            rcases checkSrc_err hsrc with ⟨prev, hp⟩ | hp
            · exact Or.inr (Or.inr (Or.inr (Or.inr (Or.inl ⟨prev, hp⟩))))
            · exact Or.inr (Or.inr (Or.inr (Or.inr (Or.inr (Or.inl hp)))))
          | ok st2 =>
            simp only [hsrc] at h
            cases hsink : checkSink st2 p.kind with
            | error e0 =>
              simp only [hsink, Except.error.injEq] at h
              subst h
              rcases checkSink_err hsink with ⟨prev, hp⟩ | hp
              · exact Or.inr (Or.inr (Or.inr (Or.inr (Or.inr (Or.inr (Or.inl ⟨prev, hp⟩))))))
              · exact Or.inr (Or.inr (Or.inr (Or.inr (Or.inr (Or.inr (Or.inr hp))))))
            | ok st3 =>
              simp only [hsink] at h
              simp at h
        · rw [if_pos (by simp [ht])] at h
          simp only [Except.error.injEq] at h
          exact Or.inr (Or.inr (Or.inr (Or.inl ⟨_, _, h.symm⟩)))

theorem compileStep_counts {Chan E : Type}
    {fs : List (PlanKind × PipeNodeFactory Chan E)} {st st' : CompileState Chan E}
    {p : Plan} (h : compileStep fs st p = .ok st') :
    optCount st'.termInput = optCount st.termInput + (if p.kind.isSrc then 1 else 0) ∧
    optCount st'.termOutput = optCount st.termOutput + (if p.kind.isSink then 1 else 0) := by
  obtain ⟨f, imp, st2, st3, hlk, hci, hb, ht, hsrc, hsink, hst⟩ := compileStep_ok_parts h
  obtain ⟨h2to, h2n, h2cnt, h2none⟩ := checkSrc_ok hsrc
  obtain ⟨h3ti, h3n, h3cnt⟩ := checkSink_ok hsink
  subst hst
  constructor
  · show optCount st3.termInput = _
    rw [h3ti, h2cnt, applyOutput_termInput]
  · show optCount st3.termOutput = _
    rw [h3cnt, h2to, applyOutput_termOutput]

theorem typeName_src_inv {Chan E : Type} {imp : PipeNodeImpl Chan E}
    (h : imp.typeName = .src) : ∃ c, imp = .src c := by
  cases imp <;> first
    | exact ⟨_, rfl⟩
    | simp [PipeNodeImpl.typeName] at h

theorem compileStep_first {Chan E : Type}
    {fs : List (PlanKind × PipeNodeFactory Chan E)} {st st' : CompileState Chan E}
    {p : Plan} (h : compileStep fs st p = .ok st') (hinv : FirstIsSrc st) :
    FirstIsSrc st' := by
  obtain ⟨f, imp, st2, st3, hlk, hci, hb, ht, hsrc, hsink, hst⟩ := compileStep_ok_parts h
  obtain ⟨h2to, h2n, h2cnt, h2none⟩ := checkSrc_ok hsrc
  obtain ⟨h3ti, h3n, h3cnt⟩ := checkSink_ok hsink
  subst hst
  rcases hinv with ⟨hn, hti⟩ | ⟨k, a, c, rest, hn⟩
  · obtain ⟨n, hk⟩ := h2none (by rw [applyOutput_termInput]; exact hti)
    obtain ⟨c, hc⟩ := typeName_src_inv (by rw [ht, hk]; rfl)
    right
    refine ⟨p.kind, p.args, c, [], ?_⟩
    show st3.nodes ++ [_] = _
    rw [h3n, h2n, applyOutput_nodes, hn, hc]
    rfl
  · right
    refine ⟨k, a, c, rest ++ [{ kind := p.kind, args := p.args, imp := imp }], ?_⟩
    show st3.nodes ++ [_] = _
    rw [h3n, h2n, applyOutput_nodes, hn]
    rfl

theorem srcCount_cons (p : Plan) (rest : List Plan) :
    srcCount (p :: rest) = (if p.kind.isSrc then 1 else 0) + srcCount rest := by
  by_cases hk : p.kind.isSrc <;> simp [srcCount, List.filter_cons, hk, Nat.add_comm]

theorem sinkCount_cons (p : Plan) (rest : List Plan) :
    sinkCount (p :: rest) = (if p.kind.isSink then 1 else 0) + sinkCount rest := by
  by_cases hk : p.kind.isSink <;> simp [sinkCount, List.filter_cons, hk, Nat.add_comm]

theorem compileFold_counts {Chan E : Type}
    {fs : List (PlanKind × PipeNodeFactory Chan E)} :
    ∀ (plans : List Plan) (st st' : CompileState Chan E),
      compileFold fs st plans = .ok st' →
      optCount st'.termInput = optCount st.termInput + srcCount plans ∧
      optCount st'.termOutput = optCount st.termOutput + sinkCount plans := by
  intro plans
  induction plans with
  | nil =>
    intro st st' h
    have h' := Except.ok.inj h
    subst h'
    simp [srcCount, sinkCount]
  | cons p rest ih =>
    intro st st' h
    unfold compileFold at h
    cases hstep : compileStep fs st p with
    | error e => simp [hstep] at h
    | ok st1 =>
      simp only [hstep] at h
      obtain ⟨h1, h2⟩ := ih st1 st' h
      obtain ⟨hc1, hc2⟩ := compileStep_counts hstep
      rw [srcCount_cons, sinkCount_cons]
      constructor <;> omega

theorem compileFold_first {Chan E : Type}
    {fs : List (PlanKind × PipeNodeFactory Chan E)} :
    ∀ (plans : List Plan) (st st' : CompileState Chan E),
      compileFold fs st plans = .ok st' → FirstIsSrc st → FirstIsSrc st' := by
  intro plans
  induction plans with
  | nil =>
    intro st st' h hinv
    have h' := Except.ok.inj h
    subst h'
    exact hinv
  | cons p rest ih =>
    intro st st' h hinv
    unfold compileFold at h
    cases hstep : compileStep fs st p with
    | error e => simp [hstep] at h
    | ok st1 =>
      simp only [hstep] at h
      exact ih st1 st' h (compileStep_first hstep hinv)

theorem exec_some_safe {Chan E : Type} :
    ∀ (nodes : List (PipeNode Chan E)) (c : Chan),
      exec (some c) nodes ≠ .error .unwrapNone ∧ exec (some c) nodes ≠ .error .todoLoad := by
  intro nodes
  induction nodes with
  | nil => intro c; constructor <;> simp [exec]
  | cons node rest ih =>
    intro c
    cases himp : node.imp with
    | batch => constructor <;> simp [exec, himp]
    | func f =>
      cases hf : f c with
      | error e => constructor <;> simp [exec, himp, hf]
      | ok c' =>
        have := ih c'
        constructor <;> simp [exec, himp, hf, this.1, this.2]
    | sink s =>
      cases hs : s c with
      | error e => constructor <;> simp [exec, himp, hs]
      | ok u => cases u; constructor <;> simp [exec, himp, hs]
    | src s =>
      cases hs : s with
      | error e => constructor <;> simp [exec, himp, hs]
      | ok c' =>
        have := ih c'
        constructor <;> simp [exec, himp, hs, this.1, this.2]
    | store sv =>
      cases hs : sv c with
      | error e => constructor <;> simp [exec, himp, hs]
      | ok c' =>
        have := ih c'
        constructor <;> simp [exec, himp, hs, this.1, this.2]
    | stream => constructor <;> simp [exec, himp]

theorem checkSrc_src_some {Chan E : Type} {st : CompileState Chan E} {n : String}
    {prev : PlanKind} (hti : st.termInput = some prev) :
    checkSrc st (.src n) = .error (.duplicatedSrc prev (.src n)) := by
  unfold checkSrc
  rw [hti]

theorem checkSrc_nonsrc_none {Chan E : Type} {st : CompileState Chan E} {k : PlanKind}
    (hk : k.isSrc = false) (hti : st.termInput = none) :
    checkSrc st k = .error (.linkBeforeSrc k) := by
  cases k
  case src n => simp [PlanKind.isSrc] at hk
  all_goals (unfold checkSrc; rw [hti])

theorem checkSrc_nonsrc_some {Chan E : Type} {st : CompileState Chan E} {k : PlanKind}
    {prev : PlanKind} (hk : k.isSrc = false) (hti : st.termInput = some prev) :
    checkSrc st k = .ok st := by
  cases k
  case src n => simp [PlanKind.isSrc] at hk
  all_goals (unfold checkSrc; rw [hti])

theorem checkSink_sink_some {Chan E : Type} {st : CompileState Chan E} {n : String}
    {prev : PlanKind} (hto : st.termOutput = some prev) :
    checkSink st (.sink n) = .error (.duplicatedSink prev (.sink n)) := by
  unfold checkSink
  rw [hto]

theorem checkSink_nonsink_some {Chan E : Type} {st : CompileState Chan E} {k : PlanKind}
    {prev : PlanKind} (hk : k.isSink = false) (hto : st.termOutput = some prev) :
    checkSink st k = .error (.linkAfterSink k) := by
  cases k
  case sink n => simp [PlanKind.isSink] at hk
  all_goals (unfold checkSink; rw [hto])

theorem compileFold_err_shape {Chan E : Type}
    {fs : List (PlanKind × PipeNodeFactory Chan E)} :
    ∀ (plans : List Plan) (st : CompileState Chan E) (e : CompileErr E),
      compileFold fs st plans = .error e →
      ∀ k, e ≠ .incompatibleBatch k ∧ e ≠ .missingModel k ∧ e ≠ .incompatibleStream k := by
  intro plans
  induction plans with
  | nil => intro st e h; simp [compileFold] at h
  | cons p rest ih =>
    intro st e h
    unfold compileFold at h
    cases hstep : compileStep fs st p with
    | error e0 =>
      simp only [hstep, Except.error.injEq] at h
      subst h
      intro k
      rcases compileStep_err_shape hstep with
        h1 | h1 | ⟨e1, h1⟩ | ⟨a, b, h1⟩ | ⟨pv, h1⟩ | h1 | ⟨pv, h1⟩ | h1 <;>
        subst h1 <;> exact ⟨by simp, by simp, by simp⟩
    | ok st1 =>
      simp only [hstep] at h
      exact ih st1 e h

/-- Claim C2 (amended): the validator behind the batch, model-membership
and stream comparisons is a stub that always succeeds, so compilation
never fails with an incompatible-batch, missing-model or
incompatible-stream error; the only enforced input-edge condition is
that a factory whose input edge sets the model axis while the rolling
model set is empty fails with the implicit-model error. -/
theorem compile_edge_validation {Chan E : Type} :
    (∀ (fs : List (PlanKind × PipeNodeFactory Chan E)) (plans : List Plan)
       (e : CompileErr E) (k : PlanKind),
      compile fs plans = .error e →
      e ≠ .incompatibleBatch k ∧ e ≠ .missingModel k ∧ e ≠ .incompatibleStream k) ∧
    (∀ (fs : List (PlanKind × PipeNodeFactory Chan E)) (st : CompileState Chan E)
       (p : Plan) (factory : PipeNodeFactory Chan E) (ms : List String),
      lookupFactory fs p.kind = some factory →
      factory.input.model = some ms →
      st.inputModel = [] →
      compileStep fs st p = .error (.implicitModel p.kind)) := by
  constructor
  · intro fs plans e k h
    unfold compile at h
    cases hf : compileFold fs (initState Chan E) plans with
    | error e0 =>
      simp only [hf, Except.error.injEq] at h
      subst h
      exact compileFold_err_shape plans _ e0 hf k
    | ok st =>
      simp only [hf] at h
      cases hti : st.termInput with
      | none =>
        simp only [hti, Except.error.injEq] at h
        subst h
        exact ⟨by simp, by simp, by simp⟩
      | some k0 =>
        simp only [hti] at h
        cases hto : st.termOutput with
        | none =>
          simp only [hto, Except.error.injEq] at h
          subst h
          exact ⟨by simp, by simp, by simp⟩
        | some k1 => simp [hto] at h
  · intro fs st p factory ms hlk hm hempty
    have hci : checkInput st factory.input p.kind = .error (.implicitModel p.kind) := by
      rw [checkInput_eq, hm, hempty]
      rfl
    unfold compileStep
    simp [hlk, hci]

/-- Witness for the amended C2 theorem: the pipeline with only a source
fails with the structural no-sink error and not with any of the stubbed
edge errors, and a factory with a set model axis fails with the
implicit-model error in the fresh rolling context. -/
theorem compile_edge_validation_witness :
    ((CompileErr.noSrc : CompileErr String) ≠ .incompatibleBatch (.src "file") ∧
     (CompileErr.noSrc : CompileErr String) ≠ .missingModel (.src "file") ∧
     (CompileErr.noSrc : CompileErr String) ≠ .incompatibleStream (.src "file")) ∧
    compileStep Examples.exFactories (initState Nat String)
        { kind := .func "pdf" "conv", args := [] }
      = .error (.implicitModel (.func "pdf" "conv")) := by
  constructor
  · exact (@compile_edge_validation Nat String).1
      Examples.exFactories [] .noSrc (.src "file") rfl
  · exact (@compile_edge_validation Nat String).2
      Examples.exFactories (initState Nat String)
      { kind := .func "pdf" "conv", args := [] }
      Examples.mismatchedFuncFactory ["pdf"] rfl rfl rfl

/-- Counterexample to claim C2 as stated: a pipeline whose middle node's
input edge disagrees with the rolling context on the batch axis, on
model membership and on the stream axis is admitted by the compiler; no
incompatible-batch, missing-model or incompatible-stream failure
occurs. -/
theorem mismatched_edges_admitted :
    Examples.mismatchedFuncFactory.input.batch ≠ Examples.srcFactory.output.batch ∧
    Examples.mismatchedFuncFactory.input.stream ≠ Examples.srcFactory.output.stream ∧
    Examples.mismatchedFuncFactory.input.model = some ["pdf"] ∧
    Examples.srcFactory.output.model = some ["binary"] ∧
    ("pdf" ∈ (["binary"] : List String) → False) ∧
    (compile Examples.exFactories Examples.mismatchedPlans).isOk = true := by
  exact ⟨by decide, by decide, rfl, rfl, by decide, rfl⟩

/-- Claim C5: an admitted plan list contains exactly one Src and exactly
one Sink; at a reachable loop state whose earlier checks pass, a second
Src fails duplicated-src, a non-Src before any Src fails link-before-src,
a second Sink fails duplicated-sink, a non-Src non-Sink after the Sink
fails link-after-sink; and after the scan an absent Src or Sink is the
no-src or no-sink error. -/
theorem compile_src_sink_discipline {Chan E : Type} :
    (∀ (fs : List (PlanKind × PipeNodeFactory Chan E)) (plans : List Plan)
       (nodes : List (PipeNode Chan E)),
      compile fs plans = .ok nodes → srcCount plans = 1 ∧ sinkCount plans = 1) ∧
    (∀ (fs : List (PlanKind × PipeNodeFactory Chan E)) (st : CompileState Chan E)
       (p : Plan) (n : String) (prev : PlanKind),
      p.kind = .src n → st.termInput = some prev → FrontOk fs st p →
      compileStep fs st p = .error (.duplicatedSrc prev p.kind)) ∧
    (∀ (fs : List (PlanKind × PipeNodeFactory Chan E)) (st : CompileState Chan E)
       (p : Plan),
      p.kind.isSrc = false → st.termInput = none → FrontOk fs st p →
      compileStep fs st p = .error (.linkBeforeSrc p.kind)) ∧
    (∀ (fs : List (PlanKind × PipeNodeFactory Chan E)) (st : CompileState Chan E)
       (p : Plan) (n : String) (prevIn prevOut : PlanKind),
      p.kind = .sink n → st.termInput = some prevIn → st.termOutput = some prevOut →
      FrontOk fs st p →
      compileStep fs st p = .error (.duplicatedSink prevOut p.kind)) ∧
    (∀ (fs : List (PlanKind × PipeNodeFactory Chan E)) (st : CompileState Chan E)
       (p : Plan) (prevIn prevOut : PlanKind),
      p.kind.isSrc = false → p.kind.isSink = false →
      st.termInput = some prevIn → st.termOutput = some prevOut → FrontOk fs st p →
      compileStep fs st p = .error (.linkAfterSink p.kind)) ∧
    (∀ (fs : List (PlanKind × PipeNodeFactory Chan E)) (plans : List Plan)
       (st : CompileState Chan E),
      compileFold fs (initState Chan E) plans = .ok st →
      (st.termInput = none → compile fs plans = .error .noSrc) ∧
      (st.termInput.isSome → st.termOutput = none → compile fs plans = .error .noSink)) := by
  refine ⟨?_, ?_, ?_, ?_, ?_, ?_⟩
  · intro fs plans nodes h
    unfold compile at h
    cases hf : compileFold fs (initState Chan E) plans with
    | error e => simp [hf] at h
    | ok st =>
      simp only [hf] at h
      obtain ⟨h1, h2⟩ := compileFold_counts plans (initState Chan E) st hf
      cases hti : st.termInput with
      | none => simp [hti] at h
      | some k0 =>
        simp only [hti] at h
        cases hto : st.termOutput with
        | none => simp [hto] at h
        | some k1 =>
          rw [hti] at h1
          rw [hto] at h2
          simp [optCount, initState] at h1 h2
          exact ⟨h1.symm, h2.symm⟩
  · intro fs st p n prev hk hti hfront
    obtain ⟨factory, imp, hlk, hci, hb, ht⟩ := hfront
    have hcs : checkSrc (applyOutput st factory.output) p.kind
        = .error (.duplicatedSrc prev p.kind) := by
      rw [hk]
      exact checkSrc_src_some (by rw [applyOutput_termInput]; exact hti)
    unfold compileStep
    simp only [hlk, hci, hb]
    rw [if_neg (by simp [ht])]
    simp [hcs]
  · intro fs st p hk hti hfront
    obtain ⟨factory, imp, hlk, hci, hb, ht⟩ := hfront
    have hcs : checkSrc (applyOutput st factory.output) p.kind
        = .error (.linkBeforeSrc p.kind) :=
      checkSrc_nonsrc_none hk (by rw [applyOutput_termInput]; exact hti)
    unfold compileStep
    simp only [hlk, hci, hb]
    rw [if_neg (by simp [ht])]
    simp [hcs]
  · intro fs st p n prevIn prevOut hk hti hto hfront
    obtain ⟨factory, imp, hlk, hci, hb, ht⟩ := hfront
    have hnotsrc : p.kind.isSrc = false := by rw [hk]; rfl
    have hcs : checkSrc (applyOutput st factory.output) p.kind
        = .ok (applyOutput st factory.output) :=
      checkSrc_nonsrc_some hnotsrc (by rw [applyOutput_termInput]; exact hti)
    have hck : checkSink (applyOutput st factory.output) p.kind
        = .error (.duplicatedSink prevOut p.kind) := by
      rw [hk]
      exact checkSink_sink_some (by rw [applyOutput_termOutput]; exact hto)
    unfold compileStep
    simp only [hlk, hci, hb]
    rw [if_neg (by simp [ht])]
    simp [hcs, hck]
  · intro fs st p prevIn prevOut hksrc hksink hti hto hfront
    obtain ⟨factory, imp, hlk, hci, hb, ht⟩ := hfront
    have hcs : checkSrc (applyOutput st factory.output) p.kind
        = .ok (applyOutput st factory.output) :=
      checkSrc_nonsrc_some hksrc (by rw [applyOutput_termInput]; exact hti)
    have hck : checkSink (applyOutput st factory.output) p.kind
        = .error (.linkAfterSink p.kind) :=
      checkSink_nonsink_some hksink (by rw [applyOutput_termOutput]; exact hto)
    unfold compileStep
    simp only [hlk, hci, hb]
    rw [if_neg (by simp [ht])]
    simp [hcs, hck]
  · intro fs plans st hf
    constructor
    · intro hti
      unfold compile
      simp [hf, hti]
    · intro hti hto
      obtain ⟨k0, hk0⟩ := Option.isSome_iff_exists.mp hti
      unfold compile
      simp [hf, hk0, hto]

/-- Witness for the C5 theorem: the admitted two-node pipeline counts one
Src and one Sink, and each structural error fires at a concrete state. -/
theorem compile_src_sink_discipline_witness :
    (srcCount Examples.okPlans = 1 ∧ sinkCount Examples.okPlans = 1) ∧
    (compileStep Examples.exFactories Examples.stAfterSrcW
        { kind := .src "file", args := [] }
      = .error (.duplicatedSrc (.src "file") (.src "file"))) ∧
    (compileStep Examples.exFactories (initState Nat String)
        { kind := .sink "stdout", args := [] }
      = .error (.linkBeforeSrc (.sink "stdout"))) ∧
    (compileStep Examples.exFactories Examples.stAfterSinkW
        { kind := .sink "stdout", args := [] }
      = .error (.duplicatedSink (.sink "stdout") (.sink "stdout"))) ∧
    (compileStep Examples.exFactories Examples.stAfterSinkW
        { kind := .func "pdf" "conv", args := [] }
      = .error (.linkAfterSink (.func "pdf" "conv"))) ∧
    (compile Examples.exFactories ([] : List Plan) = .error .noSrc) ∧
    (compile Examples.exFactories [{ kind := .src "file", args := [] }]
      = .error .noSink) := by
  refine ⟨?_, ?_, ?_, ?_, ?_, ?_, ?_⟩
  · exact (@compile_src_sink_discipline Nat String).1
      Examples.exFactories Examples.okPlans Examples.okNodes rfl
  · exact (@compile_src_sink_discipline Nat String).2.1
      Examples.exFactories Examples.stAfterSrcW { kind := .src "file", args := [] }
      "file" (.src "file") rfl rfl
      ⟨Examples.srcFactory, .src (.ok 0), rfl, rfl, rfl, rfl⟩
  · exact (@compile_src_sink_discipline Nat String).2.2.1
      Examples.exFactories (initState Nat String) { kind := .sink "stdout", args := [] }
      rfl rfl ⟨Examples.sinkFactory, .sink (fun _ => .ok ()), rfl, rfl, rfl, rfl⟩
  · exact (@compile_src_sink_discipline Nat String).2.2.2.1
      Examples.exFactories Examples.stAfterSinkW { kind := .sink "stdout", args := [] }
      "stdout" (.src "file") (.sink "stdout") rfl rfl rfl
      ⟨Examples.sinkFactory, .sink (fun _ => .ok ()), rfl, rfl, rfl, rfl⟩
  · exact (@compile_src_sink_discipline Nat String).2.2.2.2.1
      Examples.exFactories Examples.stAfterSinkW { kind := .func "pdf" "conv", args := [] }
      (.src "file") (.sink "stdout") rfl rfl rfl rfl
      ⟨Examples.mismatchedFuncFactory, .func (fun c => .ok c), rfl, rfl, rfl, rfl⟩
  · exact ((@compile_src_sink_discipline Nat String).2.2.2.2.2
      Examples.exFactories [] (initState Nat String) rfl).1 rfl
  · exact ((@compile_src_sink_discipline Nat String).2.2.2.2.2
      Examples.exFactories [{ kind := .src "file", args := [] }]
      Examples.stSrcOnly rfl).2 rfl rfl

/-- Claim C10: for every admitted plan list the executor never reaches a
node with an empty channel register: the first node is the Src, every
later node receives a present channel, so the unwrap of an absent
channel and the unimplemented Store load branch are unreachable. -/
theorem admitted_plans_channel_safe {Chan E : Type}
    (fs : List (PlanKind × PipeNodeFactory Chan E)) (plans : List Plan)
    (nodes : List (PipeNode Chan E)) (h : compile fs plans = .ok nodes) :
    exec (none : Option Chan) nodes ≠ .error .unwrapNone ∧
    exec (none : Option Chan) nodes ≠ .error .todoLoad := by
  unfold compile at h
  cases hf : compileFold fs (initState Chan E) plans with
  | error e => simp [hf] at h
  | ok st =>
    simp only [hf] at h
    cases hti : st.termInput with
    | none => simp [hti] at h
    | some k0 =>
      simp only [hti] at h
      cases hto : st.termOutput with
      | none => simp [hto] at h
      | some k1 =>
        simp only [hto, Except.ok.injEq] at h
        subst h
        have hfirst := compileFold_first plans _ st hf (Or.inl ⟨rfl, rfl⟩)
        rcases hfirst with ⟨hn, hti2⟩ | ⟨k, a, c, rest, hn⟩
        · rw [hti2] at hti
          cases hti
        · rw [hn]
          cases hc : c with
          | error e => constructor <;> simp [exec, hc]
          | ok ch =>
            have hsafe := exec_some_safe rest ch
            constructor <;> simp [exec, hc, hsafe.1, hsafe.2]

/-- Witness for the C10 theorem: the admitted two-node pipeline executes
without ever unwrapping an absent channel. -/
theorem admitted_plans_channel_safe_witness :
    exec (none : Option Nat) Examples.okNodes
      ≠ .error (ExecErr.unwrapNone (E := String)) ∧
    exec (none : Option Nat) Examples.okNodes
      ≠ .error (ExecErr.todoLoad (E := String)) :=
  admitted_plans_channel_safe Examples.exFactories Examples.okPlans Examples.okNodes rfl

end Pipe

end XLake
